import Mathlib

/-
  Verification of the client-side behavior layer of the aurelie
  single-page site (src/js/main.js) against its specification.

  JavaScript strings are modelled as lists of characters; the DOM
  elements each controller touches are modelled as small structures,
  and every handler becomes a pure state-transition function translated
  from the source.
-/

namespace Aurelie

/-- A JavaScript string, modelled as a list of characters. -/
abbrev Str := List Char

/-- The closed set of supported language codes (`fr` and `en`). -/
inductive Lang where
  | fr
  | en
deriving DecidableEq, Repr

/-- A translatable element: the two `data-fr` / `data-en` attribute values
(`none` models an absent attribute, `some []` an empty one), the currently
displayed content, and a record of the kind of the last write performed by
the switcher (`some true` = markup-interpreting `innerHTML` assignment,
`some false` = plain-text `textContent` assignment, `none` = untouched). -/
structure Translatable where
  dataFr : Option Str
  dataEn : Option Str
  content : Str
  lastWriteStructured : Option Bool
deriving DecidableEq, Repr

/-- The `el.dataset[lang]` lookup. -/
def dataset (el : Translatable) : Lang → Option Str
  | Lang.fr => el.dataFr
  | Lang.en => el.dataEn

/-- The `haystack.includes(needle)` test of JavaScript: substring
containment, decided through Mathlib's `List.decidableInfix`. -/
def jsIncludes (s sub : Str) : Bool := decide (sub <:+: s)

/-- The literal substring the switcher tests for first: `"<br>"`. -/
def brStr : Str := ['<', 'b', 'r', '>']

/-- The single-character markup delimiter the switcher tests for second. -/
def chevron : Str := ['<']

/-- One iteration of the `switchLanguage` loop: translated from
`src/js/main.js` lines 189-201.  `if (translation)` is falsy both for an
absent attribute and for the empty string; the markup test is
`translation.includes(brStr) || translation.includes(chevron)`. -/
def switchEl (lang : Lang) (el : Translatable) : Translatable :=
  match dataset el lang with
  | none => el
  | some translation =>
    if translation = [] then el
    else if jsIncludes translation brStr || jsIncludes translation chevron then
      { el with content := translation, lastWriteStructured := some true }
    else
      { el with content := translation, lastWriteStructured := some false }

/-- The `switchLanguage` function (`src/js/main.js` lines 188-202): applies
`switchEl` to every translatable element. -/
def switchLanguage (lang : Lang) (els : List Translatable) : List Translatable :=
  els.map (switchEl lang)

theorem mem_of_jsIncludes {v sub : Str} {c : Char} (hc : c ∈ sub)
    (h : jsIncludes v sub = true) : c ∈ v := by
  have hinf : sub <:+: v := of_decide_eq_true h
  obtain ⟨s, t, hst⟩ := hinf
  subst hst
  simp [hc]

theorem jsIncludes_chevron_of_mem {v : Str} (h : '<' ∈ v) :
    jsIncludes v chevron = true := by
  obtain ⟨s, t, hst⟩ := List.append_of_mem h
  subst hst
  refine decide_eq_true ?_
  exact ⟨s, t, by simp [chevron]⟩

/-- The markup test of the switcher collapses to the single chevron test:
`v` includes the four-character break tag only if it includes the chevron. -/
theorem markupTest_eq_chevron (v : Str) :
    (jsIncludes v brStr || jsIncludes v chevron) = jsIncludes v chevron := by
  cases hc : jsIncludes v chevron with
  | true => simp
  | false =>
    simp only [Bool.or_false]
    cases hb : jsIncludes v brStr with
    | false => rfl
    | true =>
      exfalso
      have hm : '<' ∈ v := mem_of_jsIncludes (by simp [brStr]) hb
      rw [jsIncludes_chevron_of_mem hm] at hc
      exact absurd hc (by simp)

/-- The chevron-inclusion test is exactly chevron membership. -/
theorem jsIncludes_chevron_iff (v : Str) :
    jsIncludes v chevron = true ↔ '<' ∈ v := by
  constructor
  · exact fun h => mem_of_jsIncludes (by simp [chevron]) h
  · exact jsIncludes_chevron_of_mem

/-- A language-selector control (`.lang-switch__btn`): its `data-lang`
attribute and whether it carries the `active` class. -/
structure LangButton where
  dataLang : Lang
  active : Bool
deriving DecidableEq, Repr

/-- The page state touched by the language-switcher click handler:
the `currentLang` flag, the selector controls, the `document.documentElement.lang`
attribute and the translatable elements. -/
structure PageState where
  currentLang : Lang
  langBtns : List LangButton
  docLang : Lang
  translatables : List Translatable
deriving DecidableEq, Repr

/-- The click handler installed by `initLanguageSwitcher` (`src/js/main.js`
lines 160-182), firing on the button at index `b`: read `this.dataset.lang`;
return early when it equals `currentLang`; otherwise update `currentLang`,
strip `active` from every button, mark the clicked one active, set the
document language attribute and run `switchLanguage`. -/
def langBtnClick (s : PageState) (b : Nat) : PageState :=
  match s.langBtns[b]? with
  | none => s
  | some btn =>
    if btn.dataLang = s.currentLang then s
    else
      { currentLang := btn.dataLang
        langBtns := (s.langBtns.map fun o => { o with active := false }).set b
          { btn with active := true }
        docLang := btn.dataLang
        translatables := switchLanguage btn.dataLang s.translatables }

/-- Exactly one selector control is active, and it is one whose language
code equals the `currentLang` flag. -/
def activeMatchesCurrent (s : PageState) : Prop :=
  ∃ i, ∃ h : i < s.langBtns.length,
    (s.langBtns.get ⟨i, h⟩).active = true ∧
    (s.langBtns.get ⟨i, h⟩).dataLang = s.currentLang ∧
    ∀ j, ∀ h' : j < s.langBtns.length, (s.langBtns.get ⟨j, h'⟩).active = true → j = i

/-- The string written into `document.body.style.overflow` on open. -/
def overflowHidden : Str := ['h', 'i', 'd', 'd', 'e', 'n']

/-- The document state touched by the mobile-menu, smooth-scroll and
lightbox handlers: the menu panel's `active` class, the toggle's `active`
class and `aria-expanded` attribute, `document.body.style.overflow`,
the currently focused element (an opaque identifier, `none` when nothing
scripted holds focus), the lightbox overlay's `active` class and the
last programmatic scroll destination. -/
structure DocState where
  menuActive : Bool
  toggleActive : Bool
  toggleAria : Bool
  bodyOverflow : Str
  focused : Option Nat
  lightboxActive : Bool
  scrolledTo : Option Int
deriving DecidableEq, Repr

/-- The `openMenu` function (`src/js/main.js` lines 142-147). -/
def openMenu (s : DocState) : DocState :=
  { s with menuActive := true, toggleActive := true, toggleAria := true,
           bodyOverflow := overflowHidden }

/-- The `closeMenu` function (`src/js/main.js` lines 149-154):
`document.body.style.overflow` is reset to the empty string. -/
def closeMenu (s : DocState) : DocState :=
  { s with menuActive := false, toggleActive := false, toggleAria := false,
           bodyOverflow := [] }

/-- The `toggleMenu` function (`src/js/main.js` lines 132-140). -/
def toggleMenu (s : DocState) : DocState :=
  if s.menuActive then closeMenu s else openMenu s

/-- The menu-related events wired by `initMobileMenu`: the toggle click,
a mobile-link click, the Escape key, and a document click (carrying whether
the click target lies inside the menu panel or inside the toggle). -/
inductive MenuEvent where
  | toggleClick
  | linkClick
  | escapeKey
  | outsideClick (inMenu : Bool) (inToggle : Bool)
deriving DecidableEq, Repr

/-- Dispatch of one menu event, translated from `initMobileMenu`
(`src/js/main.js` lines 101-130). -/
def menuEvent (s : DocState) : MenuEvent → DocState
  | MenuEvent.toggleClick => toggleMenu s
  | MenuEvent.linkClick => closeMenu s
  | MenuEvent.escapeKey => if s.menuActive then closeMenu s else s
  | MenuEvent.outsideClick inMenu inToggle =>
      if s.menuActive && !inMenu && !inToggle then closeMenu s else s

/-- An event that, fired on an open menu, takes the close path of its
handler. -/
def closingEvent : MenuEvent → Prop
  | MenuEvent.toggleClick => True
  | MenuEvent.linkClick => True
  | MenuEvent.escapeKey => True
  | MenuEvent.outsideClick inMenu inToggle => inMenu = false ∧ inToggle = false

instance : DecidablePred closingEvent := by
  intro e
  cases e <;> simp [closingEvent] <;> infer_instance

/-- The lightbox open handler (`src/js/main.js` lines 442-447): shows the
overlay and locks page scroll. -/
def openLightbox (s : DocState) : DocState :=
  { s with lightboxActive := true, bodyOverflow := overflowHidden }

/-- A JavaScript runtime exception; the only kind these handlers can raise
is a `TypeError` from dereferencing a `null` DOM lookup. -/
inductive JsError where
  | typeError
deriving DecidableEq, Repr

/-- The header element; its one scripted bit of state is the
`header--scrolled` class. -/
structure HeaderEl where
  scrolled : Bool
deriving DecidableEq, Repr

/-- The `updateHeader` closure of `initHeader` (`src/js/main.js` lines
71-83): `elements.header.classList` is dereferenced with no null guard,
so an absent header raises a `TypeError`. -/
def updateHeader (header : Option HeaderEl) (scrollY : Nat) :
    Except JsError HeaderEl :=
  match header with
  | none => Except.error JsError.typeError
  | some _ => Except.ok { scrolled := scrollY > 50 }

/-- The `initHeader` function (`src/js/main.js` lines 67-95): it runs
`updateHeader()` once immediately, before any scroll event. -/
def initHeader (header : Option HeaderEl) (scrollY : Nat) :
    Except JsError HeaderEl :=
  updateHeader header scrollY

/-- The `initMobileMenu` function (`src/js/main.js` lines 101-130):
returns whether handlers were wired; it guards both lookups, so it never
raises. -/
def initMobileMenu (menuToggle mobileMenu : Option Unit) :
    Except JsError Bool :=
  match menuToggle, mobileMenu with
  | some _, some _ => Except.ok true
  | _, _ => Except.ok false

/-- The `initBackToTop` function (`src/js/main.js` lines 311-343): guarded
by an early return on a missing button. -/
def initBackToTop (backToTop : Option Unit) : Except JsError Bool :=
  match backToTop with
  | some _ => Except.ok true
  | none => Except.ok false

/-- The `initLightbox` function (`src/js/main.js` lines 432-475): guarded
by an early return when the overlay, image or close control is missing. -/
def initLightbox (lightbox lightboxImage lightboxClose : Option Unit) :
    Except JsError Bool :=
  match lightbox, lightboxImage, lightboxClose with
  | some _, some _, some _ => Except.ok true
  | _, _, _ => Except.ok false

/-- The bare-fragment href `"#"` that the smooth-scroll handler ignores. -/
def hashStr : Str := ['#']

/-- The smooth-scroll click handler (`src/js/main.js` lines 212-234) for a
link with fragment `targetId`.  `resolves` says whether
`document.querySelector(targetId)` found an element and `targetTop` is that
element's absolute vertical position.  The handler calls `closeMenu()`
before dereferencing `elements.header.offsetHeight`, so with an absent
header the menu side effects land and then a `TypeError` is raised; the
result pairs the final document state with the exception, if any. -/
def smoothScrollClick (header : Option HeaderEl) (headerHeight : Nat)
    (s : DocState) (targetId : Str) (resolves : Bool) (targetTop : Int) :
    DocState × Option JsError :=
  if targetId = hashStr then (s, none)
  else if resolves = false then (s, none)
  else
    let s1 := closeMenu s
    match header with
    | none => (s1, some JsError.typeError)
    | some _ => ({ s1 with scrolledTo := some (targetTop - headerHeight) }, none)

/-- Index-aware map, used to model a `forEach` loop that skips the item
identity-equal to the clicked one. -/
def mapWithIdx (f : Nat → α → α) : Nat → List α → List α
  | _, [] => []
  | n, a :: as => f n a :: mapWithIdx f (n + 1) as

theorem length_mapWithIdx (f : Nat → α → α) (n : Nat) (l : List α) :
    (mapWithIdx f n l).length = l.length := by
  induction l generalizing n with
  | nil => rfl
  | cons a as ih => simp [mapWithIdx, ih]

theorem get_mapWithIdx (f : Nat → α → α) (n : Nat) (l : List α) (i : Nat)
    (h : i < l.length) (h' : i < (mapWithIdx f n l).length) :
    (mapWithIdx f n l).get ⟨i, h'⟩ = f (n + i) (l.get ⟨i, h⟩) := by
  induction l generalizing n i with
  | nil => exact absurd h (by simp)
  | cons a as ih =>
    cases i with
    | zero => simp [mapWithIdx]
    | succ j =>
      have hj : j < as.length := Nat.lt_of_succ_lt_succ h
      have hj' : j < (mapWithIdx f (n + 1) as).length := by
        rw [length_mapWithIdx]; exact hj
      have := ih (n + 1) j hj hj'
      simp only [mapWithIdx, List.get_cons_succ, this]
      ring_nf

/-- An `.accordion__item`: the `aria-expanded` attribute of its
`.accordion__header` and the `active` class of its `.accordion__content`;
`none` models an absent sub-element. -/
structure AccItem where
  headerAria : Option Bool
  contentActive : Option Bool
deriving DecidableEq, Repr

/-- One iteration of the `initAccordions` loop (`src/js/main.js` lines
243-247): both sub-element lookups are guarded by `if (!header || !content)
return;`, so an item missing either is skipped without an exception;
returns whether a click handler was attached. -/
def initAccordionItem (it : AccItem) : Except JsError Bool :=
  match it.headerAria, it.contentActive with
  | some _, some _ => Except.ok true
  | _, _ => Except.ok false

/-- The close-others pass of the accordion click handler applied to one
other item (`src/js/main.js` lines 253-262): items missing either
sub-element are skipped. -/
def closeOtherAcc (it : AccItem) : AccItem :=
  match it.headerAria, it.contentActive with
  | some _, some _ => { headerAria := some false, contentActive := some false }
  | _, _ => it

/-- The accordion header click handler (`src/js/main.js` lines 249-267),
fired on item `i`.  `initAccordions` attaches the handler only when the
item has both header and content (line 247), so items lacking one are
inert; otherwise every other item is closed and item `i`'s expansion
attribute and content class are each toggled. -/
def accordionClick (items : List AccItem) (i : Nat) : List AccItem :=
  match items[i]? with
  | none => items
  | some it =>
    match it.headerAria, it.contentActive with
    | some isExpanded, some act =>
        (mapWithIdx (fun j o => if j = i then o else closeOtherAcc o) 0 items).set i
          { headerAria := some (!isExpanded), contentActive := some (!act) }
    | _, _ => items

/-- An `.atelier-card`: the `aria-expanded` attribute of its
`.atelier-card__toggle`, the `active` class of its `.atelier-card__content`
and the presence of its `.atelier-card__header`; `none` models an absent
sub-element. -/
structure AtelierCard where
  toggleAria : Option Bool
  contentActive : Option Bool
  headerPresent : Bool
deriving DecidableEq, Repr

/-- One iteration of the `initAtelierCards` loop (`src/js/main.js` lines
276-304): a card missing its toggle or content is skipped, but when both
are present `header.addEventListener` is called with no null guard on the
header lookup, raising a `TypeError` for a card without a header. -/
def initAtelierCard (c : AtelierCard) : Except JsError Unit :=
  match c.toggleAria, c.contentActive with
  | some _, some _ =>
      if c.headerPresent then Except.ok () else Except.error JsError.typeError
  | _, _ => Except.ok ()

/-- The `initAtelierCards` function (`src/js/main.js` lines 275-305): an
exception thrown inside `forEach` aborts the remaining iterations. -/
def initAtelierCards (cs : List AtelierCard) : Except JsError Unit :=
  cs.foldl (fun acc c => acc >>= fun _ => initAtelierCard c) (Except.ok ())

/-- The close-others pass of the atelier-card click handler applied to one
other card (`src/js/main.js` lines 289-298). -/
def closeOtherCard (c : AtelierCard) : AtelierCard :=
  match c.toggleAria, c.contentActive with
  | some _, some _ => { c with toggleAria := some false, contentActive := some false }
  | _, _ => c

/-- The atelier-card header click handler (`src/js/main.js` lines 285-303),
fired on card `i`; it exists only when the card has toggle and content. -/
def atelierClick (cards : List AtelierCard) (i : Nat) : List AtelierCard :=
  match cards[i]? with
  | none => cards
  | some c =>
    match c.toggleAria, c.contentActive with
    | some isExpanded, some act =>
        (mapWithIdx (fun j o => if j = i then o else closeOtherCard o) 0 cards).set i
          { c with toggleAria := some (!isExpanded), contentActive := some (!act) }
    | _, _ => cards

/-- An accordion item is expanded when its header carries
`aria-expanded` set to true. -/
def accExpanded (items : List AccItem) (j : Nat) : Prop :=
  ∃ h : j < items.length, (items.get ⟨j, h⟩).headerAria = some true

/-- An atelier card is expanded when its toggle carries
`aria-expanded` set to true. -/
def cardExpanded (cards : List AtelierCard) (j : Nat) : Prop :=
  ∃ h : j < cards.length, (cards.get ⟨j, h⟩).toggleAria = some true

/-- A reveal candidate element: its `visible` class, whether the
intersection observer still observes it, its inline `transition-delay`
style (in milliseconds) and its static index among the reveal-tagged
children of its parent. -/
structure RevealEl where
  visible : Bool
  observed : Bool
  transitionDelay : Option Nat
  siblingIndex : Nat
deriving DecidableEq, Repr

/-- The body of the observer callback for one intersecting entry,
translated from `initRevealAnimations` (`src/js/main.js` lines 373-394):
the stagger delay is written when the sibling index among reveal-tagged
siblings is positive, the `visible` class is added and the target is
released from observation. -/
def revealMark (el : RevealEl) : RevealEl :=
  { el with
    visible := true
    observed := false
    transitionDelay :=
      if el.siblingIndex > 0 then some (el.siblingIndex * 80)
      else el.transitionDelay }

/-- One observer callback entry for the element at index `ev.1` with
`isIntersecting` flag `ev.2`.  The observer only delivers entries for
targets it still observes; an intersecting entry for an observed target
applies `revealMark`, anything else changes nothing. -/
def revealStep (els : List RevealEl) (ev : Nat × Bool) : List RevealEl :=
  match els[ev.1]? with
  | none => els
  | some el =>
    if el.observed && ev.2 then els.set ev.1 (revealMark el)
    else els

/-- A whole sequence of observer callback entries. -/
def revealRun (els : List RevealEl) (evs : List (Nat × Bool)) : List RevealEl :=
  evs.foldl revealStep els

theorem switchEl_of_some {lang : Lang} {el : Translatable} {v : Str}
    (hv : dataset el lang = some v) (hne : v ≠ []) :
    switchEl lang el =
      if jsIncludes v brStr || jsIncludes v chevron then
        { el with content := v, lastWriteStructured := some true }
      else { el with content := v, lastWriteStructured := some false } := by
  unfold switchEl
  rw [hv]
  simp [hne]

/-- C1.  For every supported language code and every translatable element
carrying a non-empty associated string `v` for it, after `switchLanguage`
the element's displayed content equals `v`, and the write is the
markup-interpreting assignment exactly when `v` contains the chevron
character, otherwise the plain-text assignment. -/
theorem C1_switch_applies_translation (lang : Lang) (els : List Translatable)
    (i : Nat) (h : i < els.length) (v : Str)
    (hv : dataset (els.get ⟨i, h⟩) lang = some v) (hne : v ≠ []) :
    ∃ el : Translatable, (switchLanguage lang els)[i]? = some el ∧
      el.content = v ∧
      (el.lastWriteStructured = some true ↔ '<' ∈ v) ∧
      (el.lastWriteStructured = some false ↔ '<' ∉ v) := by
  refine ⟨switchEl lang (els.get ⟨i, h⟩), ?_, ?_⟩
  · rw [switchLanguage, List.getElem?_map, List.getElem?_eq_getElem h]
    simp [List.get_eq_getElem]
  · rw [switchEl_of_some hv hne, markupTest_eq_chevron]
    cases hc : jsIncludes v chevron with
    | true =>
      have hm : '<' ∈ v := (jsIncludes_chevron_iff v).mp hc
      simp [hm]
    | false =>
      have hm : '<' ∉ v := by
        intro hmem
        rw [jsIncludes_chevron_of_mem hmem] at hc
        exact absurd hc (by simp)
      simp [hm]

/-- C1 witness: switching the sample element to English writes the string
as plain text; its displayed content holds the English value. -/
theorem C1_witness :
    ∃ el : Translatable,
      (switchLanguage Lang.en
        [⟨some ['B', 'o', 'n'], some ['H', 'i'], ['B', 'o', 'n'], none⟩])[0]? = some el ∧
      el.content = ['H', 'i'] ∧
      (el.lastWriteStructured = some true ↔ '<' ∈ ['H', 'i']) ∧
      (el.lastWriteStructured = some false ↔ '<' ∉ ['H', 'i']) :=
  C1_switch_applies_translation Lang.en
    [⟨some ['B', 'o', 'n'], some ['H', 'i'], ['B', 'o', 'n'], none⟩]
    0 (by decide) ['H', 'i'] (by decide) (by decide)

/-- C2.  A translatable element whose associated string for the requested
language is absent or empty is left exactly as it was: the whole element,
its displayed content included, is unchanged by `switchLanguage`. -/
theorem C2_missing_translation_unchanged (lang : Lang)
    (els : List Translatable) (i : Nat) (h : i < els.length)
    (hv : dataset (els.get ⟨i, h⟩) lang = none ∨
          dataset (els.get ⟨i, h⟩) lang = some []) :
    (switchLanguage lang els)[i]? = some (els.get ⟨i, h⟩) := by
  rw [switchLanguage, List.getElem?_map, List.getElem?_eq_getElem h]
  have : switchEl lang (els.get ⟨i, h⟩) = els.get ⟨i, h⟩ := by
    rcases hv with hv | hv
    · unfold switchEl
      rw [hv]
    · unfold switchEl
      rw [hv]
      simp
  simp [List.get_eq_getElem] at this ⊢
  exact this

/-- C2 witness: an element with an absent English value keeps its French
content when switching to English. -/
theorem C2_witness :
    (switchLanguage Lang.en
      [⟨some ['B', 'o', 'n'], none, ['B', 'o', 'n'], none⟩])[0]? =
      some ⟨some ['B', 'o', 'n'], none, ['B', 'o', 'n'], none⟩ :=
  C2_missing_translation_unchanged Lang.en
    [⟨some ['B', 'o', 'n'], none, ['B', 'o', 'n'], none⟩] 0 (by decide)
    (Or.inl (by decide))

/-- C3.  Clicking a language-selector control whose code equals the
currently active language is a no-op: the whole page state — translatable
content, selector active classes, document language attribute and the
`currentLang` flag — is returned unchanged. -/
theorem C3_same_lang_noop (s : PageState) (b : Nat) (btn : LangButton)
    (hb : s.langBtns[b]? = some btn) (hl : btn.dataLang = s.currentLang) :
    langBtnClick s b = s := by
  unfold langBtnClick
  rw [hb]
  simp [hl]

/-- C3 witness: clicking the French button while French is active leaves
the concrete page state untouched. -/
theorem C3_witness :
    langBtnClick
      ⟨Lang.fr, [⟨Lang.fr, true⟩, ⟨Lang.en, false⟩], Lang.fr, []⟩ 0 =
      ⟨Lang.fr, [⟨Lang.fr, true⟩, ⟨Lang.en, false⟩], Lang.fr, []⟩ :=
  C3_same_lang_noop ⟨Lang.fr, [⟨Lang.fr, true⟩, ⟨Lang.en, false⟩], Lang.fr, []⟩
    0 ⟨Lang.fr, true⟩ (by decide) (by decide)

/-- C4.  The active-indicator invariant — exactly one selector control
carries the `active` class and its code equals the `currentLang` flag — is
preserved by every language-switch activation. -/
theorem C4_active_indicator_invariant (s : PageState) (b : Nat)
    (hs : activeMatchesCurrent s) :
    activeMatchesCurrent (langBtnClick s b) := by
  unfold langBtnClick
  cases hb : s.langBtns[b]? with
  | none => exact hs
  | some btn =>
    by_cases heq : btn.dataLang = s.currentLang
    · simpa [heq] using hs
    · obtain ⟨hblt, -⟩ := List.getElem?_eq_some.mp hb
      simp only [heq, if_false]
      refine ⟨b, ?_, ?_, ?_, ?_⟩
      · simpa [List.length_set, List.length_map] using hblt
      · rw [List.get_eq_getElem]
        simp [List.getElem_set, List.length_map, hblt]
      · rw [List.get_eq_getElem]
        simp [List.getElem_set, List.length_map, hblt]
      · intro j hj hact
        rw [List.get_eq_getElem, List.getElem_set] at hact
        by_cases hbj : b = j
        · exact hbj.symm
        · rw [if_neg hbj, List.getElem_map] at hact
          exact absurd hact (by simp)

/-- C4 witness: from a state where the French control alone is active,
clicking the English control re-establishes the invariant. -/
theorem C4_witness :
    activeMatchesCurrent
      (langBtnClick ⟨Lang.fr, [⟨Lang.fr, true⟩, ⟨Lang.en, false⟩], Lang.fr, []⟩ 1) := by
  have hs : activeMatchesCurrent
      ⟨Lang.fr, [⟨Lang.fr, true⟩, ⟨Lang.en, false⟩], Lang.fr, []⟩ := by
    refine ⟨0, by decide, by decide, by decide, ?_⟩
    intro j hj hact
    have hj2 : j < 2 := hj
    interval_cases j
    · rfl
    · simp [List.get_eq_getElem] at hact
  exact C4_active_indicator_invariant
    ⟨Lang.fr, [⟨Lang.fr, true⟩, ⟨Lang.en, false⟩], Lang.fr, []⟩ 1 hs

/-- C5 counterexample: with the header element absent, `initHeader` runs
its initial `updateHeader()` call into a null dereference and raises a
`TypeError` instead of silently disabling itself. -/
theorem C5_counterexample :
    initHeader none 0 = Except.error JsError.typeError := rfl

/-- C5 amended.  The mobile-menu, back-to-top and lightbox controllers, an
accordion item missing its header or content sub-element, and an atelier
card missing its toggle or content pane, do disable themselves silently;
but the header scroll controller raises a `TypeError` at initialization
when the header element is absent, the smooth-scroll handler raises a
`TypeError` when a resolving anchor link is activated with the header
absent (after the menu-close side effects have already landed), and an
atelier card that has toggle and content but no header sub-element makes
initialization raise a `TypeError`. -/
theorem C5_amended_defensive_lookups :
    (∀ t m : Option Unit, t = none ∨ m = none →
        initMobileMenu t m = Except.ok false) ∧
    (initBackToTop none = Except.ok false) ∧
    (∀ lb li lc : Option Unit, lb = none ∨ li = none ∨ lc = none →
        initLightbox lb li lc = Except.ok false) ∧
    (∀ it : AccItem, it.headerAria = none ∨ it.contentActive = none →
        initAccordionItem it = Except.ok false) ∧
    (∀ c : AtelierCard, c.toggleAria = none ∨ c.contentActive = none →
        initAtelierCard c = Except.ok ()) ∧
    (∀ y : Nat, initHeader none y = Except.error JsError.typeError) ∧
    (∀ (hh : Nat) (s : DocState) (tid : Str) (tt : Int), tid ≠ hashStr →
        smoothScrollClick none hh s tid true tt =
          (closeMenu s, some JsError.typeError)) ∧
    (∀ c : AtelierCard, c.toggleAria ≠ none → c.contentActive ≠ none →
        c.headerPresent = false →
        initAtelierCard c = Except.error JsError.typeError) := by
  refine ⟨?_, rfl, ?_, ?_, ?_, fun _ => rfl, ?_, ?_⟩
  · intro t m h
    cases t <;> cases m <;> simp_all [initMobileMenu]
  · intro lb li lc h
    cases lb <;> cases li <;> cases lc <;> simp_all [initLightbox]
  · intro it h
    rcases it with ⟨ha, ca⟩
    cases ha <;> cases ca <;> simp_all [initAccordionItem]
  · intro c h
    rcases c with ⟨ta, ca, hp⟩
    cases ta <;> cases ca <;> simp_all [initAtelierCard]
  · intro hh s tid tt hne
    simp [smoothScrollClick, hne]
  · intro c hta hca hp
    rcases c with ⟨ta, ca, hp'⟩
    cases ta with
    | none => exact absurd rfl hta
    | some e =>
      cases ca with
      | none => exact absurd rfl hca
      | some a =>
        simp only at hp
        subst hp
        rfl

/-- C5 amended witness: a missing menu toggle disables the mobile-menu
controller silently, an accordion item without a header is skipped
silently, while an atelier card with toggle and content but no header
raises a `TypeError` at initialization, as does the smooth-scroll handler
run without a header. -/
theorem C5_amended_witness :
    initMobileMenu none (some ()) = Except.ok false ∧
    initAccordionItem ⟨none, some true⟩ = Except.ok false ∧
    initAtelierCard ⟨some false, some false, false⟩ =
      Except.error JsError.typeError ∧
    smoothScrollClick none 80 ⟨false, false, false, [], none, false, none⟩
      ['#', 'a'] true 300 =
      (closeMenu ⟨false, false, false, [], none, false, none⟩,
        some JsError.typeError) :=
  ⟨C5_amended_defensive_lookups.1 none (some ()) (Or.inl rfl),
   C5_amended_defensive_lookups.2.2.2.1 ⟨none, some true⟩ (Or.inl rfl),
   C5_amended_defensive_lookups.2.2.2.2.2.2.2 ⟨some false, some false, false⟩
     (by simp) (by simp) rfl,
   C5_amended_defensive_lookups.2.2.2.2.2.2.1 80
     ⟨false, false, false, [], none, false, none⟩ ['#', 'a'] 300 (by decide)⟩

theorem getElem?_mapWithIdx (f : Nat → α → α) (n : Nat) (l : List α)
    (i : Nat) : (mapWithIdx f n l)[i]? = (l[i]?).map (f (n + i)) := by
  induction l generalizing n i with
  | nil => simp [mapWithIdx]
  | cons a as ih =>
    cases i with
    | zero => simp [mapWithIdx]
    | succ j =>
      simp only [mapWithIdx, List.getElem?_cons_succ, ih (n + 1) j]
      have : n + (j + 1) = n + 1 + j := by omega
      rw [this]

theorem accordionClick_spec (items : List AccItem) (i : Nat)
    (hi : i < items.length) (e a : Bool)
    (hit : items[i] = ⟨some e, some a⟩)
    (hall : ∀ it ∈ items, it.headerAria ≠ none ∧ it.contentActive ≠ none) :
    (accordionClick items i)[i]? = some ⟨some (!e), some (!a)⟩ ∧
    (∀ j, j < items.length → j ≠ i →
      (accordionClick items i)[j]? = some ⟨some false, some false⟩) ∧
    (∀ j k, accExpanded (accordionClick items i) j →
      accExpanded (accordionClick items i) k → j = k) := by
  have key : accordionClick items i =
      (mapWithIdx (fun j o => if j = i then o else closeOtherAcc o) 0 items).set i
        ⟨some (!e), some (!a)⟩ := by
    unfold accordionClick
    rw [List.getElem?_eq_getElem hi, hit]
  have hlen : (accordionClick items i).length = items.length := by
    rw [key, List.length_set, length_mapWithIdx]
  have hself : (accordionClick items i)[i]? = some ⟨some (!e), some (!a)⟩ := by
    rw [key, List.getElem?_set_self]
    rw [length_mapWithIdx]
    exact hi
  have hothers : ∀ j, j < items.length → j ≠ i →
      (accordionClick items i)[j]? = some ⟨some false, some false⟩ := by
    intro j hj hne
    obtain ⟨h1, h2⟩ := hall items[j] (List.getElem_mem hj)
    obtain ⟨e', he'⟩ := Option.ne_none_iff_exists'.mp h1
    obtain ⟨a', ha'⟩ := Option.ne_none_iff_exists'.mp h2
    rw [key, List.getElem?_set_ne (fun hij => hne hij.symm)]
    rw [getElem?_mapWithIdx, List.getElem?_eq_getElem hj]
    simp only [Option.map_some', Nat.zero_add]
    rw [if_neg hne]
    unfold closeOtherAcc
    rw [he', ha']
  refine ⟨hself, hothers, ?_⟩
  have hidx : ∀ j, ∀ hj : j < (accordionClick items i).length,
      ((accordionClick items i).get ⟨j, hj⟩).headerAria = some true → j = i := by
    intro j hj hjt
    by_contra hji
    have hjlt : j < items.length := by rw [hlen] at hj; exact hj
    have h1 := hothers j hjlt hji
    rw [List.getElem?_eq_getElem hj] at h1
    have h2 := Option.some.inj h1
    rw [List.get_eq_getElem, h2] at hjt
    exact absurd hjt (by simp)
  rintro j k ⟨hj, hjt⟩ ⟨hk, hkt⟩
  exact (hidx j hj hjt).trans (hidx k hk hkt).symm

theorem atelierClick_spec (cards : List AtelierCard) (i : Nat)
    (hi : i < cards.length) (e a : Bool) (hp : Bool)
    (hit : cards[i] = ⟨some e, some a, hp⟩)
    (hall : ∀ c ∈ cards, c.toggleAria ≠ none ∧ c.contentActive ≠ none) :
    (atelierClick cards i)[i]? = some ⟨some (!e), some (!a), hp⟩ ∧
    (∀ j, ∀ hj : j < cards.length, j ≠ i →
      (atelierClick cards i)[j]? =
        some { cards[j] with toggleAria := some false, contentActive := some false }) ∧
    (∀ j k, cardExpanded (atelierClick cards i) j →
      cardExpanded (atelierClick cards i) k → j = k) := by
  have key : atelierClick cards i =
      (mapWithIdx (fun j o => if j = i then o else closeOtherCard o) 0 cards).set i
        ⟨some (!e), some (!a), hp⟩ := by
    unfold atelierClick
    rw [List.getElem?_eq_getElem hi, hit]
  have hlen : (atelierClick cards i).length = cards.length := by
    rw [key, List.length_set, length_mapWithIdx]
  have hself : (atelierClick cards i)[i]? = some ⟨some (!e), some (!a), hp⟩ := by
    rw [key, List.getElem?_set_self]
    rw [length_mapWithIdx]
    exact hi
  have hothers : ∀ j, ∀ hj : j < cards.length, j ≠ i →
      (atelierClick cards i)[j]? =
        some { cards[j] with toggleAria := some false, contentActive := some false } := by
    intro j hj hne
    obtain ⟨h1, h2⟩ := hall cards[j] (List.getElem_mem hj)
    obtain ⟨e', he'⟩ := Option.ne_none_iff_exists'.mp h1
    obtain ⟨a', ha'⟩ := Option.ne_none_iff_exists'.mp h2
    rw [key, List.getElem?_set_ne (fun hij => hne hij.symm)]
    rw [getElem?_mapWithIdx, List.getElem?_eq_getElem hj]
    simp only [Option.map_some', Nat.zero_add]
    rw [if_neg hne]
    unfold closeOtherCard
    rw [he', ha']
  refine ⟨hself, hothers, ?_⟩
  have hidx : ∀ j, ∀ hj : j < (atelierClick cards i).length,
      ((atelierClick cards i).get ⟨j, hj⟩).toggleAria = some true → j = i := by
    intro j hj hjt
    by_contra hji
    have hjlt : j < cards.length := by rw [hlen] at hj; exact hj
    have h1 := hothers j hjlt hji
    rw [List.getElem?_eq_getElem hj] at h1
    have h2 := Option.some.inj h1
    rw [List.get_eq_getElem, h2] at hjt
    exact absurd hjt (by simp)
  rintro j k ⟨hj, hjt⟩ ⟨hk, hkt⟩
  exact (hidx j hj hjt).trans (hidx k hk hkt).symm

/-- C6.  For both expandable groups — accordion items and atelier cards —
activating the header of item `i` toggles that item's expansion attribute
and content class, collapses every other item of the group, and leaves at
most one item of the group expanded. -/
theorem C6_single_open_policy :
    (∀ (items : List AccItem) (i : Nat) (hi : i < items.length) (e a : Bool),
      items[i] = ⟨some e, some a⟩ →
      (∀ it ∈ items, it.headerAria ≠ none ∧ it.contentActive ≠ none) →
      (accordionClick items i)[i]? = some ⟨some (!e), some (!a)⟩ ∧
      (∀ j, j < items.length → j ≠ i →
        (accordionClick items i)[j]? = some ⟨some false, some false⟩) ∧
      (∀ j k, accExpanded (accordionClick items i) j →
        accExpanded (accordionClick items i) k → j = k)) ∧
    (∀ (cards : List AtelierCard) (i : Nat) (hi : i < cards.length)
        (e a hp : Bool),
      cards[i] = ⟨some e, some a, hp⟩ →
      (∀ c ∈ cards, c.toggleAria ≠ none ∧ c.contentActive ≠ none) →
      (atelierClick cards i)[i]? = some ⟨some (!e), some (!a), hp⟩ ∧
      (∀ j, ∀ hj : j < cards.length, j ≠ i →
        (atelierClick cards i)[j]? =
          some { cards[j] with toggleAria := some false,
                               contentActive := some false }) ∧
      (∀ j k, cardExpanded (atelierClick cards i) j →
        cardExpanded (atelierClick cards i) k → j = k)) :=
  ⟨fun items i hi e a hit hall => accordionClick_spec items i hi e a hit hall,
   fun cards i hi e a hp hit hall =>
     atelierClick_spec cards i hi e a hp hit hall⟩

/-- C6 witness: in a two-item accordion whose second item is expanded,
activating the first header expands it and collapses the second; the
matching atelier-card activation behaves the same way. -/
theorem C6_witness :
    ((accordionClick [⟨some false, some false⟩, ⟨some true, some true⟩] 0)[0]? =
        some ⟨some true, some true⟩ ∧
      (∀ j, j < ([⟨some false, some false⟩,
          (⟨some true, some true⟩ : AccItem)]).length → j ≠ 0 →
        (accordionClick [⟨some false, some false⟩, ⟨some true, some true⟩] 0)[j]? =
          some ⟨some false, some false⟩) ∧
      (∀ j k,
        accExpanded
          (accordionClick [⟨some false, some false⟩, ⟨some true, some true⟩] 0) j →
        accExpanded
          (accordionClick [⟨some false, some false⟩, ⟨some true, some true⟩] 0) k →
        j = k)) ∧
    ((atelierClick [⟨some false, some false, true⟩, ⟨some true, some true, true⟩] 0)[0]? =
        some ⟨some true, some true, true⟩ ∧
      (∀ j, ∀ hj : j < ([⟨some false, some false, true⟩,
          (⟨some true, some true, true⟩ : AtelierCard)]).length, j ≠ 0 →
        (atelierClick
            [⟨some false, some false, true⟩, ⟨some true, some true, true⟩] 0)[j]? =
          some { ([⟨some false, some false, true⟩,
              (⟨some true, some true, true⟩ : AtelierCard)])[j] with
            toggleAria := some false, contentActive := some false }) ∧
      (∀ j k,
        cardExpanded
          (atelierClick
            [⟨some false, some false, true⟩, ⟨some true, some true, true⟩] 0) j →
        cardExpanded
          (atelierClick
            [⟨some false, some false, true⟩, ⟨some true, some true, true⟩] 0) k →
        j = k)) :=
  ⟨C6_single_open_policy.1 [⟨some false, some false⟩, ⟨some true, some true⟩]
      0 (by decide) false false rfl (by decide),
   C6_single_open_policy.2
      [⟨some false, some false, true⟩, ⟨some true, some true, true⟩]
      0 (by decide) false false true rfl (by decide)⟩

/-- C7.  From any page state with scroll unlocked, opening the mobile menu
and then closing it by any close transition — toggle click, nav-link click,
Escape, or a click outside menu and toggle — restores the original unlocked
scroll state and leaves menu and toggle in their closed visual and aria
state. -/
theorem C7_open_close_restores (s : DocState) (h : s.bodyOverflow = [])
    (e : MenuEvent) (he : closingEvent e) :
    (menuEvent (openMenu s) e).bodyOverflow = s.bodyOverflow ∧
    (menuEvent (openMenu s) e).menuActive = false ∧
    (menuEvent (openMenu s) e).toggleActive = false ∧
    (menuEvent (openMenu s) e).toggleAria = false := by
  cases e with
  | toggleClick => simp [menuEvent, toggleMenu, openMenu, closeMenu, h]
  | linkClick => simp [menuEvent, closeMenu, h]
  | escapeKey => simp [menuEvent, openMenu, closeMenu, h]
  | outsideClick inMenu inToggle =>
    obtain ⟨h1, h2⟩ := he
    subst h1
    subst h2
    simp [menuEvent, openMenu, closeMenu, h]

/-- C7 witness: opening from a concrete unlocked state and closing through
a nav-link click restores the unlocked overflow and the closed state. -/
theorem C7_witness :
    (menuEvent (openMenu ⟨false, false, false, [], none, false, none⟩)
        MenuEvent.linkClick).bodyOverflow =
      DocState.bodyOverflow ⟨false, false, false, [], none, false, none⟩ ∧
    (menuEvent (openMenu ⟨false, false, false, [], none, false, none⟩)
        MenuEvent.linkClick).menuActive = false ∧
    (menuEvent (openMenu ⟨false, false, false, [], none, false, none⟩)
        MenuEvent.linkClick).toggleActive = false ∧
    (menuEvent (openMenu ⟨false, false, false, [], none, false, none⟩)
        MenuEvent.linkClick).toggleAria = false :=
  C7_open_close_restores ⟨false, false, false, [], none, false, none⟩ rfl
    MenuEvent.linkClick trivial

/-- C9 counterexample: opening the menu from a concrete closed state in
which nothing holds focus leaves focus on nothing — `openMenu` contains no
focus call at all, so focus is not moved to any close control. -/
theorem C9_counterexample :
    (openMenu ⟨false, false, false, [], none, false, none⟩).menuActive = true ∧
    (openMenu ⟨false, false, false, [], none, false, none⟩).focused = none :=
  ⟨rfl, rfl⟩

/-- C9 amended.  On the closed-to-open transition the menu visibility
class, the toggle active class, the toggle's expanded aria attribute and
the scroll lock are all set, but focus is left exactly where it was: the
handler moves focus to nothing (there is no separate close control; the
toggle doubles as the close button). -/
theorem C9_open_side_effects (s : DocState) (h : s.menuActive = false) :
    menuEvent s MenuEvent.toggleClick = openMenu s ∧
    (openMenu s).menuActive = true ∧
    (openMenu s).toggleActive = true ∧
    (openMenu s).toggleAria = true ∧
    (openMenu s).bodyOverflow = overflowHidden ∧
    (openMenu s).focused = s.focused := by
  refine ⟨?_, rfl, rfl, rfl, rfl, rfl⟩
  simp [menuEvent, toggleMenu, h]

/-- C9 amended witness: the toggle click on a concrete closed state opens
the menu, locks scroll and leaves focus unchanged. -/
theorem C9_witness :
    menuEvent ⟨false, false, false, [], some 3, false, none⟩
        MenuEvent.toggleClick =
      openMenu ⟨false, false, false, [], some 3, false, none⟩ ∧
    (openMenu ⟨false, false, false, [], some 3, false, none⟩).menuActive = true ∧
    (openMenu ⟨false, false, false, [], some 3, false, none⟩).toggleActive = true ∧
    (openMenu ⟨false, false, false, [], some 3, false, none⟩).toggleAria = true ∧
    (openMenu ⟨false, false, false, [], some 3, false, none⟩).bodyOverflow =
      overflowHidden ∧
    (openMenu ⟨false, false, false, [], some 3, false, none⟩).focused =
      DocState.focused ⟨false, false, false, [], some 3, false, none⟩ :=
  C9_open_side_effects ⟨false, false, false, [], some 3, false, none⟩ rfl

/-- C10.  Activating a same-page anchor link whose fragment resolves runs
the menu-close routine unconditionally: the resulting scroll-lock state is
unlocked (empty overflow) regardless of what it was, while the lightbox
overlay's open state is untouched — so a lightbox that had locked page
scroll stays open with scrolling unlocked. -/
theorem C10_anchor_click_unlocks (header : HeaderEl) (hh : Nat)
    (s : DocState) (tid : Str) (tt : Int) (hne : tid ≠ hashStr) :
    (smoothScrollClick (some header) hh s tid true tt).1.bodyOverflow = [] ∧
    (smoothScrollClick (some header) hh s tid true tt).1.menuActive = false ∧
    (smoothScrollClick (some header) hh s tid true tt).1.lightboxActive =
      s.lightboxActive ∧
    (smoothScrollClick (some header) hh s tid true tt).2 = none := by
  simp [smoothScrollClick, hne, closeMenu]

/-- C10 witness: with the lightbox open and holding the scroll lock,
activating a resolving anchor link unlocks scrolling while the lightbox
stays open. -/
theorem C10_witness :
    (smoothScrollClick (some ⟨false⟩) 80
        (openLightbox ⟨false, false, false, [], none, false, none⟩)
        ['#', 'a'] true 300).1.bodyOverflow = [] ∧
    (smoothScrollClick (some ⟨false⟩) 80
        (openLightbox ⟨false, false, false, [], none, false, none⟩)
        ['#', 'a'] true 300).1.menuActive = false ∧
    (smoothScrollClick (some ⟨false⟩) 80
        (openLightbox ⟨false, false, false, [], none, false, none⟩)
        ['#', 'a'] true 300).1.lightboxActive =
      (openLightbox ⟨false, false, false, [], none, false, none⟩).lightboxActive ∧
    (smoothScrollClick (some ⟨false⟩) 80
        (openLightbox ⟨false, false, false, [], none, false, none⟩)
        ['#', 'a'] true 300).2 = none :=
  C10_anchor_click_unlocks ⟨false⟩ 80
    (openLightbox ⟨false, false, false, [], none, false, none⟩)
    ['#', 'a'] 300 (by decide)

theorem length_revealStep (els : List RevealEl) (ev : Nat × Bool) :
    (revealStep els ev).length = els.length := by
  unfold revealStep
  cases h : els[ev.1]? with
  | none => rfl
  | some el =>
    by_cases hc : (el.observed && ev.2) = true
    · simp [hc]
    · simp [hc]

theorem revealStep_preserves_unobserved (els : List RevealEl)
    (ev : Nat × Bool) (i : Nat) (hi : i < els.length)
    (hobs : els[i].observed = false) :
    (revealStep els ev)[i]? = some els[i] := by
  unfold revealStep
  cases h : els[ev.1]? with
  | none => exact List.getElem?_eq_getElem hi
  | some el =>
    by_cases hc : (el.observed && ev.2) = true
    · simp only [hc, if_true]
      by_cases hei : ev.1 = i
      · exfalso
        subst hei
        rw [List.getElem?_eq_getElem hi] at h
        have : el = els[ev.1] := (Option.some.inj h).symm
        rw [this] at hc
        rw [hobs] at hc
        exact absurd hc (by simp)
      · rw [List.getElem?_set_ne hei]
        exact List.getElem?_eq_getElem hi
    · simp only [hc, if_false]
      exact List.getElem?_eq_getElem hi

theorem revealRun_preserves_unobserved (els : List RevealEl)
    (evs : List (Nat × Bool)) (i : Nat) (hi : i < els.length)
    (hobs : els[i].observed = false) :
    (revealRun els evs)[i]? = some els[i] := by
  induction evs generalizing els with
  | nil => exact List.getElem?_eq_getElem hi
  | cons ev evs ih =>
    have hstep := revealStep_preserves_unobserved els ev i hi hobs
    have hlen : i < (revealStep els ev).length := by
      rw [length_revealStep]
      exact hi
    have hval : (revealStep els ev)[i] = els[i] := by
      rw [List.getElem?_eq_getElem hlen] at hstep
      exact Option.some.inj hstep
    have hobs' : (revealStep els ev)[i].observed = false := by
      rw [hval]
      exact hobs
    have hrec := ih (revealStep els ev) hlen hobs'
    simp only [revealRun, List.foldl_cons] at hrec ⊢
    rw [hrec, hval]

/-- C8.  For a reveal candidate still under observation, the first
intersecting observer entry marks it visible, writes its stagger delay
(when its sibling index is positive) and releases it from observation; and
after any further sequence of observer entries — however often the element
leaves and re-enters the viewport — the element is exactly as that first
entry left it: still visible, still unobserved, delay untouched. -/
theorem C8_reveal_once_monotonic (els : List RevealEl) (i : Nat)
    (hi : i < els.length) (hobs : els[i].observed = true)
    (evs : List (Nat × Bool)) :
    (revealMark els[i]).visible = true ∧
    (revealMark els[i]).observed = false ∧
    (revealMark els[i]).transitionDelay =
      (if els[i].siblingIndex > 0 then some (els[i].siblingIndex * 80)
       else els[i].transitionDelay) ∧
    (revealStep els (i, true))[i]? = some (revealMark els[i]) ∧
    (revealRun (revealStep els (i, true)) evs)[i]? =
      some (revealMark els[i]) := by
  have key : revealStep els (i, true) = els.set i (revealMark els[i]) := by
    unfold revealStep
    rw [List.getElem?_eq_getElem hi]
    simp [hobs]
  have hself : (revealStep els (i, true))[i]? = some (revealMark els[i]) := by
    rw [key, List.getElem?_set_self hi]
  have hlen1 : i < (revealStep els (i, true)).length := by
    rw [length_revealStep]
    exact hi
  have hval : (revealStep els (i, true))[i] = revealMark els[i] := by
    have hs := hself
    rw [List.getElem?_eq_getElem hlen1] at hs
    exact Option.some.inj hs
  have hobs1 : (revealStep els (i, true))[i].observed = false := by
    rw [hval]
    rfl
  refine ⟨rfl, rfl, rfl, hself, ?_⟩
  have hrun := revealRun_preserves_unobserved (revealStep els (i, true))
    evs i hlen1 hobs1
  rw [hval] at hrun
  exact hrun

/-- C8 witness: in a two-element group, an intersection entry for the
second element marks it visible with an 80 ms stagger delay and releases
it, and a later leave-and-re-enter event sequence leaves it in exactly
that state. -/
theorem C8_witness :
    (revealMark ([⟨false, true, none, 0⟩,
        (⟨false, true, none, 1⟩ : RevealEl)])[1]).visible = true ∧
    (revealMark ([⟨false, true, none, 0⟩,
        (⟨false, true, none, 1⟩ : RevealEl)])[1]).observed = false ∧
    (revealMark ([⟨false, true, none, 0⟩,
        (⟨false, true, none, 1⟩ : RevealEl)])[1]).transitionDelay =
      (if ([⟨false, true, none, 0⟩,
          (⟨false, true, none, 1⟩ : RevealEl)])[1].siblingIndex > 0
       then some (([⟨false, true, none, 0⟩,
          (⟨false, true, none, 1⟩ : RevealEl)])[1].siblingIndex * 80)
       else ([⟨false, true, none, 0⟩,
          (⟨false, true, none, 1⟩ : RevealEl)])[1].transitionDelay) ∧
    (revealStep [⟨false, true, none, 0⟩, ⟨false, true, none, 1⟩] (1, true))[1]? =
      some (revealMark ([⟨false, true, none, 0⟩,
        (⟨false, true, none, 1⟩ : RevealEl)])[1]) ∧
    (revealRun
        (revealStep [⟨false, true, none, 0⟩, ⟨false, true, none, 1⟩] (1, true))
        [(1, false), (1, true), (0, true)])[1]? =
      some (revealMark ([⟨false, true, none, 0⟩,
        (⟨false, true, none, 1⟩ : RevealEl)])[1]) :=
  C8_reveal_once_monotonic [⟨false, true, none, 0⟩, ⟨false, true, none, 1⟩]
    1 (by decide) rfl [(1, false), (1, true), (0, true)]

end Aurelie
